import Mathlib

/-!
Verification development for the ATF Sentinel repository.

The first part of this file is a shallow embedding, in Lean, of the pieces of
the repository that the verified properties are about:

* `src/frontend/lib/gemini.ts` (model fallback loop, chat entry point, code
  analysis with JSON re-extraction),
* `src/frontend/app/api/chat/route.ts` (request validation),
* `src/unnamed/part_003` and `src/frontend/app/api/issues/patterns/route.ts`
  (mock fallbacks of the champions and issue-patterns API routes),
* the Scan Orchestration and Verdict Engine (Verdict Policy, Finding
  Aggregator, Scan Orchestrator).  The backend source of that engine is not
  part of the repository snapshot (only the frontend is), so those components
  are modelled from the specification text, as flagged in their doc comments.

External I/O (the generative-model API, the backend fetch, the persistence
layer) is represented by explicit outcome-valued function parameters, and
functions that perform calls additionally return the trace of the calls they
made, so that "at most once" and "never invoked" statements can be expressed.

All theorems come after all definitions.
-/

namespace ATFSentinel

/-! ### Embedding of src/frontend/lib/gemini.ts -/

/-- The hard-coded ordered model fallback list that both `tryGenerateContent`
(gemini.ts lines 16-25) and `chatWithGemini` (lines 77-86) iterate over. -/
def modelsToTry : List String :=
  ["gemini-3-pro", "gemini-3-flash", "gemini-2.5-pro", "gemini-2.5-flash",
   "gemini-1.5-pro-latest", "gemini-1.5-flash-latest", "gemini-1.5-pro",
   "gemini-1.5-flash"]

/-- The `for (const modelName of modelsToTry)` loop shared by
`tryGenerateContent` and `chatWithGemini`: one external call per model name
(`respond` is the outcome of `generateContent` for that model), the first
`ok` wins, an error is remembered in `lastError` and the loop continues.
After the loop the remembered last error (or the default message, when no
model was ever attempted) is thrown.  The second component is the trace of
model names actually attempted, in order. -/
def runModelsFrom (respond : String → Except String String) :
    Option String → List String → Except String String × List String
  | last, [] =>
    (Except.error (last.getD "Failed to generate content with any available model"), [])
  | last, m :: rest =>
    match respond m with
    | Except.ok t => (Except.ok t, [m])
    | Except.error e =>
      let p := runModelsFrom respond (some e) rest
      (p.1, m :: p.2)

/-- Embedding of `tryGenerateContent` (gemini.ts lines 15-41): run the model
fallback loop over `modelsToTry` with no previous error. -/
def tryGenerateContent (respond : String → Except String String) :
    Except String String × List String :=
  runModelsFrom respond none modelsToTry

/-- Embedding of `const apiKey = process.env.GEMINI_API_KEY || ""`
(gemini.ts line 4). -/
def apiKeyOf (env : Option String) : String := env.getD ""

/-- Boolean substring test, used to model JavaScript
`string.includes(pattern)`. -/
def containsSub (s pat : String) : Bool := decide (pat.data <:+: s.data)

/-- The error rewriting performed by `chatWithGemini` after every model has
failed (gemini.ts lines 139-149). -/
def mapChatError (e : String) : String :=
  if containsSub e "API key" || containsSub e "401" then
    "Invalid or missing Gemini API key. Please check your GEMINI_API_KEY environment variable."
  else if containsSub e "quota" || containsSub e "429" then
    "API quota exceeded. Please try again later."
  else if containsSub e "not found" || containsSub e "404" then
    "No compatible Gemini model found. Please verify your API key has access to Gemini models."
  else
    "Failed to get AI response: " ++ e

/-- Chat message role, from the `ChatMessage` interface (gemini.ts
lines 46-50). -/
inductive ChatRole where
  | user
  | assistant
deriving DecidableEq, Repr

/-- The `ChatMessage` interface of gemini.ts (the optional timestamp carries
no behaviour and is omitted). -/
structure ChatMessage where
  role : ChatRole
  content : String
deriving DecidableEq, Repr

/-- Embedding of `chatWithGemini` (gemini.ts lines 67-150).  The function
first rejects an empty API key (JavaScript `if (!apiKey)` on the module-level
`apiKey`), then runs the same model fallback loop as `tryGenerateContent`;
when every model fails, the remembered error is rewritten by `mapChatError`.
`messages` and `userMessage` shape the conversation sent on each attempt;
the outcome of one attempt for a given model name is abstracted by
`respond`.  The second component is the trace of model names attempted. -/
def chatWithGemini (apiKey : String) (messages : List ChatMessage)
    (userMessage : String) (respond : String → Except String String) :
    Except String String × List String :=
  if apiKey = "" then
    (Except.error "GEMINI_API_KEY is not configured. Please set it in your environment variables.",
     [])
  else
    match runModelsFrom respond none modelsToTry with
    | (Except.ok t, tr) => (Except.ok t, tr)
    | (Except.error e, tr) => (Except.error (mapChatError e), tr)

/-- The opening-brace character. -/
def lbrace : Char := Char.ofNat 123

/-- The closing-brace character. -/
def rbrace : Char := Char.ofNat 125

/-- Embedding of `text.match(/\{[\s\S]*\}/)` from `analyzeCodeSecurity`
(gemini.ts line 224) on a character list.  The regular expression is greedy:
when the text has an opening brace with a closing brace somewhere after it,
the match runs from the first such opening brace to the last closing brace of
the whole text; otherwise there is no match. -/
def extractJsonSpanL (s : List Char) : Option (List Char) :=
  match s.dropWhile (fun c => !(c == lbrace)) with
  | [] => none
  | _ :: rest =>
    let r := rest.reverse.dropWhile (fun c => !(c == rbrace))
    if r.isEmpty then none else some (lbrace :: r.reverse)

/-- String-level wrapper of `extractJsonSpanL`. -/
def extractJsonSpan (s : String) : Option String :=
  (extractJsonSpanL s.data).map (fun l => String.mk l)

/-- JSON whitespace. -/
def isWs (c : Char) : Bool := c == ' ' || c == '\n' || c == '\t' || c == '\r'

/-- Drop leading JSON whitespace. -/
def skipWs (s : List Char) : List Char := s.dropWhile isWs

/-- Consume the remainder of a JSON string literal whose opening quote has
already been consumed; a backslash escapes the next character. -/
def parseJString : List Char → Option (List Char)
  | [] => none
  | c :: rest =>
    if c == '"' then some rest
    else if c == '\\' then
      match rest with
      | [] => none
      | _ :: r2 => parseJString r2
    else parseJString rest

/-- Characters that may occur in a JSON number token. -/
def isNumChar (c : Char) : Bool :=
  c.isDigit || c == '-' || c == '+' || c == '.' || c == 'e' || c == 'E'

/-- Consume an expected keyword tail (for `true`, `false`, `null`). -/
def stripKeyword (pre : String) (s : List Char) : Option (List Char) :=
  if pre.data.isPrefixOf s then some (s.drop pre.length) else none

/-- Parsing mode of the fuel-indexed JSON syntax checker: a value, the member
list of an object, or the element list of an array. -/
inductive JMode where
  | val
  | members
  | elems

/-- Fuel-indexed JSON syntax checker modelling the success or failure of
JavaScript `JSON.parse`: returns the unconsumed remainder on success.
Numbers are modelled as nonempty runs of number characters. -/
def parseJ : Nat → JMode → List Char → Option (List Char)
  | 0, _, _ => none
  | fuel + 1, JMode.val, s =>
    match skipWs s with
    | [] => none
    | c :: rest =>
      if c == lbrace then
        match skipWs rest with
        | [] => none
        | d :: r2 =>
          if d == rbrace then some r2
          else parseJ fuel JMode.members (d :: r2)
      else if c == '[' then
        match skipWs rest with
        | [] => none
        | d :: r2 =>
          if d == ']' then some r2
          else parseJ fuel JMode.elems (d :: r2)
      else if c == '"' then parseJString rest
      else if c == 't' then stripKeyword "rue" rest
      else if c == 'f' then stripKeyword "alse" rest
      else if c == 'n' then stripKeyword "ull" rest
      else if isNumChar c then some (rest.dropWhile isNumChar)
      else none
  | fuel + 1, JMode.members, s =>
    match skipWs s with
    | [] => none
    | c :: rest =>
      if c == '"' then
        match parseJString rest with
        | none => none
        | some afterKey =>
          match skipWs afterKey with
          | [] => none
          | d :: r2 =>
            if d == ':' then
              match parseJ fuel JMode.val r2 with
              | none => none
              | some afterVal =>
                match skipWs afterVal with
                | [] => none
                | e :: r3 =>
                  if e == ',' then parseJ fuel JMode.members r3
                  else if e == rbrace then some r3
                  else none
            else none
      else none
  | fuel + 1, JMode.elems, s =>
    match parseJ fuel JMode.val s with
    | none => none
    | some afterVal =>
      match skipWs afterVal with
      | [] => none
      | e :: r3 =>
        if e == ',' then parseJ fuel JMode.elems r3
        else if e == ']' then some r3
        else none

/-- Whether a whole string is syntactically valid JSON (models the success of
`JSON.parse` in `analyzeCodeSecurity`, gemini.ts line 229). -/
def jsonParses (s : String) : Bool :=
  match parseJ (s.length + 2) JMode.val s.data with
  | some rest => (skipWs rest).isEmpty
  | none => false

/-- The JSON re-extraction stage of `analyzeCodeSecurity` (gemini.ts
lines 223-229): take the greedy brace-delimited span, then parse it; the
recovered report is abstracted by the span itself since the TypeScript code
returns `JSON.parse(jsonMatch[0])` without further validation. -/
def parseReportStage (text : String) : Option String :=
  match extractJsonSpan text with
  | none => none
  | some span => if jsonParses span then some span else none

/-- Embedding of `analyzeCodeSecurity` (gemini.ts lines 186-234): one run of
`tryGenerateContent`, then JSON extraction and parsing of the returned text;
any failure is rethrown as a `Failed to analyze code` error.  The second
component is the trace of model names attempted. -/
def analyzeCodeSecurity (respond : String → Except String String) :
    Except String String × List String :=
  match tryGenerateContent respond with
  | (Except.error e, tr) => (Except.error ("Failed to analyze code: " ++ e), tr)
  | (Except.ok text, tr) =>
    match extractJsonSpan text with
    | none => (Except.error "Failed to analyze code: Invalid response format", tr)
    | some span =>
      if jsonParses span then (Except.ok span, tr)
      else (Except.error "Failed to analyze code: JSON parse error", tr)

/-! ### Embedding of src/frontend/app/api/chat/route.ts -/

/-- A JavaScript value as seen by the chat route after `request.json()`:
the destructured `message` field may be absent (`undef`), `null`, a boolean,
a number, a string, or some object/array (whose contents the route never
inspects before validation). -/
inductive JsVal where
  | undef
  | jsNull
  | jsBool (b : Bool)
  | jsNum (n : Int)
  | jsStr (s : String)
  | jsObj
  | jsArr
deriving DecidableEq, Repr

/-- JavaScript truthiness of a `JsVal` (`!message` is the negation of
this). -/
def JsVal.truthy : JsVal → Bool
  | JsVal.undef => false
  | JsVal.jsNull => false
  | JsVal.jsBool b => b
  | JsVal.jsNum n => !(n == 0)
  | JsVal.jsStr s => !(s == "")
  | JsVal.jsObj => true
  | JsVal.jsArr => true

/-- JavaScript `typeof v === "string"`. -/
def JsVal.isString : JsVal → Bool
  | JsVal.jsStr _ => true
  | _ => false

/-- The JSON body sent back by the chat route: HTTP status plus the `error`
or `response` field. -/
structure ChatRouteResponse where
  status : Nat
  error : Option String
  response : Option String
deriving DecidableEq, Repr

/-- Embedding of the `POST` handler of
`src/frontend/app/api/chat/route.ts` (lines 4-32) on an already-parsed
request body.  `message` and `history` are the destructured body fields;
`chatResult` is the outcome of the `chatWithGemini` call, which is only
reached when validation passes.  The boolean component records whether
`chatWithGemini` was invoked at all. -/
def chatPOST (message history : JsVal) (chatResult : Except String String) :
    ChatRouteResponse × Bool :=
  if !message.truthy || !message.isString then
    (⟨400, some "Message is required", none⟩, false)
  else
    match chatResult with
    | Except.ok r => (⟨200, none, some r⟩, true)
    | Except.error _ => (⟨500, some "Failed to process chat request", none⟩, true)

/-! ### Embedding of src/unnamed/part_003 (champions route) and
src/frontend/app/api/issues/patterns/route.ts (issue-patterns route) -/

/-- Outcome of the backend `fetch` as observed by a route handler: the fetch
itself may throw, or it returns a response with an `ok` flag whose
`response.json()` step may in turn fail. -/
inductive FetchOutcome (α : Type) where
  | fetchThrow
  | response (ok : Bool) (json : Except Unit α)

/-- Body of a route reply: either the backend data passed through, or the
hard-coded mock payload served from the catch block. -/
inductive RouteBody (α β : Type) where
  | backend (data : α)
  | mock (payload : β)

/-- An HTTP reply from a route handler (`NextResponse.json` defaults to
status 200). -/
structure ApiResponse (α : Type) where
  status : Nat
  body : α

/-- One entry of the hard-coded champions mock payload (src/unnamed/part_003
lines 27-34).  The fractional scores are carried exactly as rationals. -/
structure Champion where
  rank : Nat
  id : String
  display_name : String
  avatar_url : Option String
  security_score : ℚ
  total_prs : Nat
  clean_prs : Nat
  clean_rate : ℚ
  issues_fixed : Nat
  badge : String
deriving DecidableEq, Repr

/-- The hard-coded mock champions list of src/unnamed/part_003. -/
def mockChampions : List Champion :=
  [⟨1, "alice-chen", "Alice Chen", none, 98.5, 47, 45, 95.7, 12, "platinum"⟩,
   ⟨2, "bob-smith", "Bob Smith", none, 95.2, 41, 38, 92.7, 8, "platinum"⟩,
   ⟨3, "carol-davis", "Carol Davis", none, 92.8, 35, 31, 88.6, 6, "gold"⟩,
   ⟨4, "david-lee", "David Lee", none, 89.4, 33, 28, 84.8, 4, "gold"⟩,
   ⟨5, "eve-wilson", "Eve Wilson", none, 87.1, 30, 25, 83.3, 5, "gold"⟩,
   ⟨6, "frank-moore", "Frank Moore", none, 82.5, 28, 22, 78.6, 3, "silver"⟩,
   ⟨7, "grace-taylor", "Grace Taylor", none, 78.9, 25, 19, 76.0, 2, "silver"⟩,
   ⟨8, "henry-anderson", "Henry Anderson", none, 75.3, 22, 16, 72.7, 1, "silver"⟩]

/-- Embedding of the champions route `GET` handler (src/unnamed/part_003
lines 5-38).  `limit` is the `limit` query parameter; `fetch` gives the
backend outcome for the requested limit.  Any fetch throw, non-OK status, or
JSON failure lands in the catch block, which replies 200 with the mock
payload. -/
def championsGET {α : Type} (limit : Option String)
    (fetch : String → FetchOutcome α) : ApiResponse (RouteBody α (List Champion)) :=
  let limitQ := limit.getD "10"
  match fetch limitQ with
  | FetchOutcome.fetchThrow => ⟨200, RouteBody.mock mockChampions⟩
  | FetchOutcome.response ok json =>
    if ok then
      match json with
      | Except.ok d => ⟨200, RouteBody.backend d⟩
      | Except.error _ => ⟨200, RouteBody.mock mockChampions⟩
    else ⟨200, RouteBody.mock mockChampions⟩

/-- One entry of the hard-coded issue-patterns mock payload
(patterns route lines 28-35). -/
structure PatternCount where
  pattern : String
  count : Nat
deriving DecidableEq, Repr

/-- The issue-patterns mock payload, including its fixed `period_days`
field. -/
structure PatternsMock where
  period_days : Nat
  patterns : List PatternCount
deriving DecidableEq, Repr

/-- The hard-coded mock payload of the issue-patterns route (lines 25-37). -/
def mockPatterns : PatternsMock :=
  ⟨30,
   [⟨"HARDCODED_SECRET", 45⟩, ⟨"AWS_KEY", 23⟩, ⟨"PRIVATE_KEY", 18⟩,
    ⟨"API_TOKEN", 15⟩, ⟨"SQL_INJECTION", 12⟩, ⟨"XSS_VULNERABILITY", 8⟩,
    ⟨"WEAK_PASSWORD", 6⟩, ⟨"INSECURE_RANDOM", 4⟩]⟩

/-- Embedding of the issue-patterns route `GET` handler
(src/frontend/app/api/issues/patterns/route.ts lines 5-39), of the same
shape as the champions route with its own mock payload. -/
def patternsGET {α : Type} (days : Option String)
    (fetch : String → FetchOutcome α) : ApiResponse (RouteBody α PatternsMock) :=
  let daysQ := days.getD "30"
  match fetch daysQ with
  | FetchOutcome.fetchThrow => ⟨200, RouteBody.mock mockPatterns⟩
  | FetchOutcome.response ok json =>
    if ok then
      match json with
      | Except.ok d => ⟨200, RouteBody.backend d⟩
      | Except.error _ => ⟨200, RouteBody.mock mockPatterns⟩
    else ⟨200, RouteBody.mock mockPatterns⟩

/-! ### Scan Orchestration and Verdict Engine

The backend that implements the engine (Pattern Detector, Semantic Analyzer
server side, Finding Aggregator, Verdict Policy, Effect Dispatcher, Scan
Orchestrator) is not part of the repository snapshot, which contains only the
frontend; the components below are therefore modelled from the specification
text (sections 3, 4.3, 4.4, 4.5, 4.6 and 5). -/

/-- Modelled from the spec: finding severity (data model, section 3; the
backend source defining it is missing from the snapshot). -/
inductive Severity where
  | LOW
  | MEDIUM
  | HIGH
  | CRITICAL
deriving DecidableEq, Repr

/-- Modelled from the spec: which detector produced a finding (data model,
section 3; the backend source defining it is missing from the snapshot). -/
inductive Source where
  | PATTERN
  | AI
deriving DecidableEq, Repr

/-- Modelled from the spec: a Finding (data model, section 3; the backend
source defining it is missing from the snapshot).  `supplementary` holds the
AI description text attached to a pattern finding on a deduplication
collision (section 4.3). -/
structure Finding where
  source : Source
  category : String
  path : String
  line : Option Nat
  severity : Severity
  message : String
  supplementary : List String := []
  falsePositive : Bool := false
  resolved : Bool := false
deriving DecidableEq, Repr

/-- Modelled from the spec: the verdict set (section 4.4; the backend source
defining it is missing from the snapshot). -/
inductive Verdict where
  | PASS
  | WARN
  | BLOCK
deriving DecidableEq, Repr

/-- Modelled from the spec: the configured HIGH-severity threshold of the
Verdict Policy, default 2 (section 4.4; the backend source defining it is
missing from the snapshot). -/
structure PolicyConfig where
  highThreshold : Nat := 2
deriving DecidableEq, Repr

/-- Number of HIGH-severity findings in a list. -/
def countHigh (fs : List Finding) : Nat :=
  fs.countP (fun f => f.severity == Severity.HIGH)

/-- Modelled from the spec: the Verdict Policy (section 4.4; the backend
source implementing it is missing from the snapshot).  BLOCK if any finding
is CRITICAL or the HIGH count exceeds the threshold; WARN if not BLOCK and
some finding is MEDIUM or HIGH; PASS otherwise. -/
def verdictOf (cfg : PolicyConfig) (fs : List Finding) : Verdict :=
  if (fs.any (fun f => f.severity == Severity.CRITICAL)) = true ∨
      countHigh fs > cfg.highThreshold then
    Verdict.BLOCK
  else if (fs.any (fun f =>
      f.severity == Severity.MEDIUM || f.severity == Severity.HIGH)) = true then
    Verdict.WARN
  else
    Verdict.PASS

/-- Modelled from the spec: the deduplication key collision test of the
Finding Aggregator (section 4.3; the backend source implementing it is
missing from the snapshot): same file path and canonical category, with
lines equal up to the tolerance window `tol`, or an absent-line match on
category and file when a finding lacks a line number. -/
def collides (tol : Nat) (f g : Finding) : Bool :=
  f.path == g.path && f.category == g.category &&
    (match f.line, g.line with
     | some m, some n => decide (max m n - min m n ≤ tol)
     | _, _ => true)

/-- The non-collision relation between findings, used for deduplication
invariants. -/
def NColl (tol : Nat) (f g : Finding) : Prop := collides tol f g = false

/-- Rank of a severity in the output ordering (CRITICAL first). -/
def sevRank : Severity → Nat
  | Severity.CRITICAL => 0
  | Severity.HIGH => 1
  | Severity.MEDIUM => 2
  | Severity.LOW => 3

/-- Rank of a source (deterministic detector first). -/
def sourceRank : Source → Nat
  | Source.PATTERN => 0
  | Source.AI => 1

/-- Order key of an optional line number: absent lines first, then
ascending. -/
def lineKey : Option Nat → Nat
  | none => 0
  | some n => n + 1

/-- The total lexicographic key type used to rank findings. -/
abbrev FKey :=
  ℕ ×ₗ List Char ×ₗ ℕ ×ₗ List Char ×ₗ ℕ ×ₗ List Char ×ₗ List (List Char) ×ₗ Bool ×ₗ Bool

/-- Modelled from the spec: the total output ordering key of the Finding
Aggregator (section 4.3): severity descending, then file path, then line
ascending, with the remaining fields as tie breakers so that the ordering is
a linear order and the output is canonical ("output is stable and total"). -/
def findingKey (f : Finding) : FKey :=
  toLex (sevRank f.severity, toLex (f.path.data, toLex (lineKey f.line,
    toLex (f.category.data, toLex (sourceRank f.source, toLex (f.message.data,
      toLex (f.supplementary.map String.data,
        toLex (f.falsePositive, f.resolved))))))))

/-- The ranking relation of the Finding Aggregator. -/
def fle (f g : Finding) : Prop := findingKey f ≤ findingKey g

instance : DecidableRel fle :=
  fun f g => inferInstanceAs (Decidable (findingKey f ≤ findingKey g))

instance : IsTotal Finding fle :=
  ⟨fun f g => le_total (findingKey f) (findingKey g)⟩

instance : IsTrans Finding fle :=
  ⟨fun _ _ _ h1 h2 => le_trans h1 h2⟩

/-- Canonical ranking of a finding list: sort by the total key. -/
def canonSort (l : List Finding) : List Finding := l.insertionSort fle

/-- Modelled from the spec: the deduplication pass of the Finding Aggregator
over the (already canonically ordered) pattern findings: a finding is kept
when it collides with no already-kept finding, so at most one finding
survives per collision cluster and the first (highest-ranked) line is kept
(sections 4.1 and 4.3). -/
def keepFirst (tol : Nat) : List Finding → List Finding → List Finding
  | _, [] => []
  | kept, f :: rest =>
    if (kept.any (fun g => collides tol g f)) = true then keepFirst tol kept rest
    else f :: keepFirst tol (f :: kept) rest

/-- Attach an AI description as supplementary context to an authoritative
pattern finding (section 4.3). -/
def attachSupp (f : Finding) (msg : String) : Finding :=
  { f with supplementary := f.supplementary ++ [msg] }

/-- Modelled from the spec: merging one AI finding into the running result
list of the Finding Aggregator (section 4.3).  If it collides with a kept
pattern finding, the pattern finding stays authoritative (severity and line
kept) and the AI message is attached as supplementary context; if it
collides with a kept AI finding it is deduplicated away; otherwise it is
appended. -/
def insertAI (tol : Nat) : List Finding → Finding → List Finding
  | [], f => [f]
  | g :: rest, f =>
    if (collides tol g f) = true then
      if g.source = Source.PATTERN then attachSupp g f.message :: rest
      else g :: rest
    else g :: insertAI tol rest f

instance : IsAntisymm Finding fle := by
  constructor
  intro f g h1 h2
  have hk : findingKey f = findingKey g := le_antisymm h1 h2
  obtain ⟨s1, c1, p1, l1, v1, m1, u1, b1, r1⟩ := f
  obtain ⟨s2, c2, p2, l2, v2, m2, u2, b2, r2⟩ := g
  have h' : (sevRank v1, p1.data, lineKey l1, c1.data, sourceRank s1, m1.data,
      u1.map String.data, b1, r1) =
      (sevRank v2, p2.data, lineKey l2, c2.data, sourceRank s2, m2.data,
      u2.map String.data, b2, r2) := hk
  simp only [Prod.mk.injEq] at h'
  obtain ⟨e1, e2, e3, e4, e5, e6, e7, e8, e9⟩ := h'
  have hv : v1 = v2 := by cases v1 <;> cases v2 <;> simp_all [sevRank]
  have hs : s1 = s2 := by cases s1 <;> cases s2 <;> simp_all [sourceRank]
  have hl : l1 = l2 := by cases l1 <;> cases l2 <;> simp_all [lineKey]
  have hp : p1 = p2 := by cases p1; cases p2; simp_all
  have hc : c1 = c2 := by cases c1; cases c2; simp_all
  have hm : m1 = m2 := by cases m1; cases m2; simp_all
  have hu : u1 = u2 := by
    have hinj : Function.Injective String.data := fun a b hab => by
      cases a; cases b; exact congrArg String.mk hab
    exact List.map_injective_iff.mpr hinj e7
  subst hv hs hl hp hc hm hu e8 e9
  rfl

/-- Whether a finding came from the Pattern Detector. -/
def isPatternSrc (f : Finding) : Bool := f.source == Source.PATTERN

/-- Whether a finding came from the Semantic Analyzer. -/
def isAISrc (f : Finding) : Bool := f.source == Source.AI

/-- Modelled from the spec: the Finding Aggregator (section 4.3; the backend
source implementing it is missing from the snapshot).  Pattern findings are
canonically ordered and deduplicated first (the deterministic detector is
authoritative), then the AI findings are merged in canonical order, and the
result is emitted in the canonical output ordering. -/
def aggregate (tol : Nat) (l : List Finding) : List Finding :=
  let ps := canonSort (l.filter isPatternSrc)
  let ks := keepFirst tol [] ps
  let ais := canonSort (l.filter isAISrc)
  canonSort (ais.foldl (insertAI tol) ks)

/-- Modelled from the spec: the idempotency key (repository id, PR number,
head commit SHA) of section 3. -/
abbrev IdemKey := String × Nat × String

/-- Modelled from the spec: a pull-request revision event as consumed by the
Scan Orchestrator (section 4.6). -/
structure ScanEvent where
  repo : String
  prNumber : Nat
  headSha : String
deriving DecidableEq, Repr

/-- The idempotency key of an event. -/
def idemKey (e : ScanEvent) : IdemKey := (e.repo, e.prNumber, e.headSha)

/-- Modelled from the spec: the persisted ScanResult record, reduced to the
fields the orchestration claims are about (section 3). -/
structure ScanResultRec where
  verdict : Verdict
  findingCount : Nat
deriving DecidableEq, Repr

/-- Modelled from the spec: the orchestrator state machine states
(section 4.6). -/
inductive OrchState where
  | RECEIVED
  | EXTRACTING
  | DETECTING
  | AGGREGATING
  | DECIDING
  | DISPATCHING
  | DONE
  | FAILED
deriving DecidableEq, Repr

/-- Modelled from the spec: the externally visible side effects of the
Effect Dispatcher (sections 4.5 and 6): persisting the ScanResult, the
source-control status update, and the optional alert. -/
inductive ScanEffect where
  | createResult (k : IdemKey) (r : ScanResultRec)
  | setStatus (k : IdemKey) (v : Verdict)
  | sendAlert (k : IdemKey) (v : Verdict)
deriving DecidableEq, Repr

/-- Look up the ScanResult stored for an idempotency key. -/
def lookupKey (store : List (IdemKey × ScanResultRec)) (k : IdemKey) :
    Option ScanResultRec :=
  (store.find? (fun p => decide (p.1 = k))).map Prod.snd

/-- Modelled from the spec: the Scan Orchestrator processing one event
(section 4.6).  Before extracting, the idempotency key is checked: if a
ScanResult already exists the orchestrator short-circuits to DONE with no
effects.  Otherwise the scan pipeline runs (abstracted by `scan`, which
returns `none` on a fatal extraction failure and otherwise the computed
result); on success the result is persisted and the status update and, for a
non-PASS verdict, the alert are dispatched.  Returns the new store, the
dispatched effects, and the terminal state. -/
def processEvent (scan : ScanEvent → Option ScanResultRec)
    (store : List (IdemKey × ScanResultRec)) (e : ScanEvent) :
    List (IdemKey × ScanResultRec) × List ScanEffect × OrchState :=
  let k := idemKey e
  match lookupKey store k with
  | some _ => (store, [], OrchState.DONE)
  | none =>
    match scan e with
    | none => (store, [], OrchState.FAILED)
    | some r =>
      ((k, r) :: store,
       ScanEffect.createResult k r :: ScanEffect.setStatus k r.verdict ::
         (if r.verdict = Verdict.PASS then [] else [ScanEffect.sendAlert k r.verdict]),
       OrchState.DONE)

/-- Process a sequence of delivered events (at-least-once delivery may
deliver duplicates), accumulating the trace of dispatched effects. -/
def runEvents (scan : ScanEvent → Option ScanResultRec) :
    List (IdemKey × ScanResultRec) → List ScanEvent →
    List (IdemKey × ScanResultRec) × List ScanEffect
  | store, [] => (store, [])
  | store, e :: rest =>
    let p := processEvent scan store e
    let q := runEvents scan p.1 rest
    (q.1, p.2.1 ++ q.2)

/-- How many ScanResult persists for key `k` a trace contains. -/
def createsFor (k : IdemKey) (tr : List ScanEffect) : Nat :=
  tr.countP (fun eff =>
    match eff with
    | ScanEffect.createResult k2 _ => decide (k2 = k)
    | _ => false)

/-- How many status updates for key `k` a trace contains. -/
def statusFor (k : IdemKey) (tr : List ScanEffect) : Nat :=
  tr.countP (fun eff =>
    match eff with
    | ScanEffect.setStatus k2 _ => decide (k2 = k)
    | _ => false)

/-- How many alerts for key `k` a trace contains. -/
def alertsFor (k : IdemKey) (tr : List ScanEffect) : Nat :=
  tr.countP (fun eff =>
    match eff with
    | ScanEffect.sendAlert k2 _ => decide (k2 = k)
    | _ => false)

/-! ### Concrete fixtures used by closed evaluation theorems -/

/-- A model API behaviour where the highest-priority model fails with a
transport error and every other model succeeds. -/
def respondFirstFails : String → Except String String :=
  fun m => if m = "gemini-3-pro" then Except.error "503 unavailable" else Except.ok "hello"

/-- A structured vulnerability report in valid JSON form. -/
def validReportText : String :=
  "\x7b\"summary\":\"ok\",\"vulnerabilities\":[],\"recommendations\":[]\x7d"

/-- A model API behaviour where the highest-priority model succeeds but
returns prose without JSON, while every lower-priority model would return a
valid structured report. -/
def respondBadTextFirst : String → Except String String :=
  fun m => if m = "gemini-3-pro" then Except.ok "no json here" else Except.ok validReportText

/-- A response text that contains a valid JSON report surrounded by prose,
where the prose after the report contains a further brace pair. -/
def proseWrappedReport : String :=
  "Report: " ++ validReportText ++ " see \x7bdocs\x7d for details."

/-- A model API behaviour that always returns `proseWrappedReport`. -/
def respondProseWrapped : String → Except String String :=
  fun _ => Except.ok proseWrappedReport

/-- A single LOW-severity finding. -/
def lowFinding : Finding :=
  { source := Source.PATTERN, category := "WEAK_RANDOM", path := "app/util.py",
    line := some 3, severity := Severity.LOW, message := "weak random usage" }

/-- A single CRITICAL-severity finding. -/
def critFinding : Finding :=
  { source := Source.PATTERN, category := "AWS_KEY", path := "config.py",
    line := some 12, severity := Severity.CRITICAL, message := "AWS key committed" }

/-- A scan pipeline behaviour that always produces one blocked result. -/
def scanAlwaysBlock : ScanEvent → Option ScanResultRec :=
  fun _ => some ⟨Verdict.BLOCK, 1⟩

/-- A concrete pull-request revision event. -/
def sampleEvent : ScanEvent := ⟨"atf-inc/dec25_intern_D_security", 7, "abc123"⟩

/-- A store that already holds a ScanResult for `sampleEvent`. -/
def sampleStore : List (IdemKey × ScanResultRec) :=
  [(idemKey sampleEvent, ⟨Verdict.BLOCK, 1⟩)]

/-! ### Supporting lemmas -/

theorem runModelsFrom_spec (respond : String → Except String String) :
    ∀ (ms : List String) (last : Option String),
      (runModelsFrom respond last ms).2 <+: ms ∧
      ∀ t, (runModelsFrom respond last ms).1 = Except.ok t →
        ∃ pre m, (runModelsFrom respond last ms).2 = pre ++ [m] ∧
          respond m = Except.ok t ∧ ∀ m' ∈ pre, ∃ e, respond m' = Except.error e := by
  intro ms
  induction ms with
  | nil =>
    intro last
    refine ⟨List.nil_prefix, ?_⟩
    intro t ht
    simp [runModelsFrom] at ht
  | cons m rest ih =>
    intro last
    cases hrm : respond m with
    | ok t0 =>
      constructor
      · simp [runModelsFrom, hrm]
      · intro t ht
        simp [runModelsFrom, hrm] at ht
        refine ⟨[], m, by simp [runModelsFrom, hrm], ?_, by simp⟩
        rw [hrm, ht]
    | error e =>
      obtain ⟨ih1, ih2⟩ := ih (some e)
      constructor
      · have hp : m :: (runModelsFrom respond (some e) rest).2 <+: m :: rest :=
          List.cons_prefix_cons.mpr ⟨rfl, ih1⟩
        simpa [runModelsFrom, hrm] using hp
      · intro t ht
        simp only [runModelsFrom, hrm] at ht
        obtain ⟨pre, mm, htr, hok, hpre⟩ := ih2 t ht
        refine ⟨m :: pre, mm, by simp [runModelsFrom, hrm, htr], hok, ?_⟩
        intro m' hm'
        rcases List.mem_cons.mp hm' with h | h
        · exact ⟨e, h ▸ hrm⟩
        · exact hpre m' h

theorem dropWhile_append_all {α : Type} (p : α → Bool) (l₁ l₂ : List α)
    (h : ∀ a ∈ l₁, p a = true) :
    (l₁ ++ l₂).dropWhile p = l₂.dropWhile p := by
  induction l₁ with
  | nil => rfl
  | cons a t ih =>
    have ha := h a (List.mem_cons_self a t)
    rw [List.cons_append, List.dropWhile_cons, if_pos ha]
    exact ih fun x hx => h x (List.mem_cons_of_mem a hx)

theorem dropWhile_all_nil {α : Type} (p : α → Bool) (l : List α)
    (h : ∀ a ∈ l, p a = true) : l.dropWhile p = [] := by
  induction l with
  | nil => rfl
  | cons a t ih =>
    have ha := h a (List.mem_cons_self a t)
    rw [List.dropWhile_cons, if_pos ha]
    exact ih fun x hx => h x (List.mem_cons_of_mem a hx)

/-! ### Claim theorems -/

/-- C4: for every analysis request, the model fallback loop attempts the
configured model identifiers in their fixed priority order (the attempted
trace is a prefix of `modelsToTry`), each model at most once (the trace has
no duplicates), and returns the text of the first successful attempt without
attempting later models (a success ends the trace, and every model attempted
before it failed); `chatWithGemini` runs exactly this loop whenever the API
key is configured. -/
theorem semanticAnalyzer_model_fallback (respond : String → Except String String) :
    (tryGenerateContent respond).2 <+: modelsToTry ∧
    (tryGenerateContent respond).2.Nodup ∧
    (∀ t, (tryGenerateContent respond).1 = Except.ok t →
      ∃ pre m, (tryGenerateContent respond).2 = pre ++ [m] ∧
        respond m = Except.ok t ∧ ∀ m' ∈ pre, ∃ e, respond m' = Except.error e) ∧
    (∀ apiKey messages userMessage, apiKey ≠ "" →
      ∀ t, (tryGenerateContent respond).1 = Except.ok t →
        chatWithGemini apiKey messages userMessage respond = (Except.ok t, (tryGenerateContent respond).2)) := by
  obtain ⟨h1, h2⟩ := runModelsFrom_spec respond modelsToTry none
  have hnodup : modelsToTry.Nodup := by decide
  refine ⟨h1, hnodup.sublist h1.sublist, h2, ?_⟩
  intro apiKey messages userMessage hk t ht
  unfold chatWithGemini
  rw [if_neg hk]
  have hpair : runModelsFrom respond none modelsToTry =
      (Except.ok t, (tryGenerateContent respond).2) := by
    have : tryGenerateContent respond =
        ((tryGenerateContent respond).1, (tryGenerateContent respond).2) := rfl
    rw [tryGenerateContent] at ht ⊢
    rw [show runModelsFrom respond none modelsToTry =
      ((runModelsFrom respond none modelsToTry).1,
       (runModelsFrom respond none modelsToTry).2) from rfl, ht]
  rw [hpair]

/-- Closed instantiation of `semanticAnalyzer_model_fallback` at a behaviour
whose first model fails and second succeeds. -/
theorem semanticAnalyzer_model_fallback_witness :
    ((tryGenerateContent respondFirstFails).2 <+: modelsToTry) ∧
    (∃ pre m, (tryGenerateContent respondFirstFails).2 = pre ++ [m] ∧
      respondFirstFails m = Except.ok "hello" ∧
      ∀ m' ∈ pre, ∃ e, respondFirstFails m' = Except.error e) ∧
    chatWithGemini "some-key" [] "hi" respondFirstFails =
      (Except.ok "hello", (tryGenerateContent respondFirstFails).2) := by
  obtain ⟨h1, _, h3, h4⟩ := semanticAnalyzer_model_fallback respondFirstFails
  exact ⟨h1, h3 "hello" rfl, h4 "some-key" [] "hi" (by decide) "hello" rfl⟩

/-- C9: with GEMINI_API_KEY unset the chat entry point fails with the
configuration error before any model is attempted: the result is the
configuration error and the trace of attempted models is empty. -/
theorem chatWithGemini_unset_key_no_call (messages : List ChatMessage)
    (userMessage : String) (respond : String → Except String String) :
    chatWithGemini (apiKeyOf none) messages userMessage respond =
      (Except.error "GEMINI_API_KEY is not configured. Please set it in your environment variables.",
       []) := rfl

/-- C10: a chat POST body whose message field is absent or not a string is
answered 400 with "Message is required" and the AI chat function is never
invoked. -/
theorem chatPOST_rejects_invalid_message (message history : JsVal)
    (chatResult : Except String String)
    (h : message = JsVal.undef ∨ message.isString = false) :
    chatPOST message history chatResult =
      (⟨400, some "Message is required", none⟩, false) := by
  rcases h with h | h
  · subst h; rfl
  · unfold chatPOST
    rw [h]
    simp

/-- Closed instantiation of `chatPOST_rejects_invalid_message` at an absent
message field. -/
theorem chatPOST_rejects_invalid_message_witness :
    chatPOST JsVal.undef JsVal.jsArr (Except.ok "ignored") =
      (⟨400, some "Message is required", none⟩, false) :=
  chatPOST_rejects_invalid_message JsVal.undef JsVal.jsArr (Except.ok "ignored") (Or.inl rfl)

/-- C8: whenever the backend fetch throws or replies with a non-OK status,
the champions route and the issue-patterns route reply HTTP 200 with their
fixed hard-coded mock payloads, which hold 8 champions and 8 issue
patterns. -/
theorem routes_fall_back_to_mock {α β : Type} (limit days : Option String)
    (fetchC : String → FetchOutcome α) (fetchP : String → FetchOutcome β)
    (hc : ∀ q, fetchC q = FetchOutcome.fetchThrow ∨
      ∃ j, fetchC q = FetchOutcome.response false j)
    (hp : ∀ q, fetchP q = FetchOutcome.fetchThrow ∨
      ∃ j, fetchP q = FetchOutcome.response false j) :
    championsGET limit fetchC = ⟨200, RouteBody.mock mockChampions⟩ ∧
    patternsGET days fetchP = ⟨200, RouteBody.mock mockPatterns⟩ ∧
    mockChampions.length = 8 ∧ mockPatterns.patterns.length = 8 := by
  refine ⟨?_, ?_, rfl, rfl⟩
  · rcases hc (limit.getD "10") with h | ⟨j, h⟩ <;> simp [championsGET, h]
  · rcases hp (days.getD "30") with h | ⟨j, h⟩ <;> simp [patternsGET, h]

/-- Closed instantiation of `routes_fall_back_to_mock`: a throwing champions
fetch and a non-OK patterns fetch. -/
theorem routes_fall_back_to_mock_witness :
    championsGET (α := Unit) none (fun _ => FetchOutcome.fetchThrow) =
      ⟨200, RouteBody.mock mockChampions⟩ ∧
    patternsGET (α := Unit) none (fun _ => FetchOutcome.response false (Except.error ())) =
      ⟨200, RouteBody.mock mockPatterns⟩ := by
  obtain ⟨h1, h2, _, _⟩ := routes_fall_back_to_mock (α := Unit) (β := Unit) none none
    (fun _ => FetchOutcome.fetchThrow)
    (fun _ => FetchOutcome.response false (Except.error ()))
    (fun _ => Or.inl rfl)
    (fun _ => Or.inr ⟨Except.error (), rfl⟩)
  exact ⟨h1, h2⟩

/-- C5 counterexample: with `respondBadTextFirst` the highest-priority model
succeeds with text that does not parse, and the analyzer fails at once
having attempted only that model, even though the next model in the list
would have returned a parseable report; so a parse failure does not fall
through to the next model. -/
theorem analyzeCodeSecurity_no_parse_fallthrough_cex :
    (analyzeCodeSecurity respondBadTextFirst).1 =
      Except.error "Failed to analyze code: Invalid response format" ∧
    (analyzeCodeSecurity respondBadTextFirst).2 = ["gemini-3-pro"] ∧
    respondBadTextFirst "gemini-3-flash" = Except.ok validReportText ∧
    parseReportStage validReportText = some validReportText :=
  ⟨rfl, rfl, rfl, rfl⟩

/-- C5 amended: a parse failure is final rather than falling through: the
analyzer attempts exactly the models that the generation loop attempts, and
when the loop succeeds with text whose extraction or parse fails, the whole
analysis fails with an error without any further model attempt. -/
theorem analyzeCodeSecurity_parse_failure_is_final
    (respond : String → Except String String) :
    (analyzeCodeSecurity respond).2 = (tryGenerateContent respond).2 ∧
    ∀ text, (tryGenerateContent respond).1 = Except.ok text →
      parseReportStage text = none →
      ∃ msg, (analyzeCodeSecurity respond).1 = Except.error msg := by
  cases hg : tryGenerateContent respond with
  | mk r tr =>
    cases r with
    | error e =>
      refine ⟨by simp [analyzeCodeSecurity, hg], ?_⟩
      intro text ht
      simp at ht
    | ok text0 =>
      constructor
      · cases hx : extractJsonSpan text0 with
        | none => simp [analyzeCodeSecurity, hg, hx]
        | some span =>
          by_cases hj : jsonParses span = true <;>
            simp [analyzeCodeSecurity, hg, hx, hj]
      · intro text ht hparse
        simp at ht
        subst ht
        unfold parseReportStage at hparse
        cases hx : extractJsonSpan text0 with
        | none =>
          exact ⟨"Failed to analyze code: Invalid response format",
            by simp [analyzeCodeSecurity, hg, hx]⟩
        | some span =>
          rw [hx] at hparse
          have hj : jsonParses span = false := by
            by_cases hj : jsonParses span = true
            · simp [hj] at hparse
            · simpa using hj
          exact ⟨"Failed to analyze code: JSON parse error",
            by simp [analyzeCodeSecurity, hg, hx, hj]⟩

/-- Closed instantiation of `analyzeCodeSecurity_parse_failure_is_final` at
`respondBadTextFirst`. -/
theorem analyzeCodeSecurity_parse_failure_is_final_witness :
    (analyzeCodeSecurity respondBadTextFirst).2 =
      (tryGenerateContent respondBadTextFirst).2 ∧
    ∃ msg, (analyzeCodeSecurity respondBadTextFirst).1 = Except.error msg := by
  obtain ⟨h1, h2⟩ := analyzeCodeSecurity_parse_failure_is_final respondBadTextFirst
  exact ⟨h1, h2 "no json here" rfl rfl⟩

/-- C6 counterexample: `proseWrappedReport` contains the well-formed JSON
report `validReportText` surrounded by prose, yet the analysis fails,
because the greedy match runs from the first opening brace to the last
closing brace of the whole text (which covers the trailing prose brace pair)
instead of stopping at the first well-formed block. -/
theorem analyze_first_wellformed_block_cex :
    proseWrappedReport = "Report: " ++ validReportText ++ " see \x7bdocs\x7d for details." ∧
    jsonParses validReportText = true ∧
    (analyzeCodeSecurity respondProseWrapped).1 =
      Except.error "Failed to analyze code: JSON parse error" :=
  ⟨rfl, rfl, rfl⟩

/-- C6 amended: the analyzer extracts the greedy span running from the first
opening brace of the response text to its last closing brace (not the first
well-formed JSON block); the report is recovered exactly when that whole
span parses as JSON; and when the text contains no opening brace the
analysis fails with the invalid-format error. -/
theorem analyze_extracts_greedy_span (pre mid post : List Char)
    (hpre : ∀ c ∈ pre, (c == lbrace) = false)
    (hpost : ∀ c ∈ post, (c == rbrace) = false) :
    extractJsonSpanL (pre ++ lbrace :: (mid ++ rbrace :: post)) =
      some (lbrace :: (mid ++ [rbrace])) ∧
    (∀ s : List Char, (∀ c ∈ s, (c == lbrace) = false) → extractJsonSpanL s = none) ∧
    (∀ respond text, (tryGenerateContent respond).1 = Except.ok text →
      (extractJsonSpan text = none →
        (analyzeCodeSecurity respond).1 =
          Except.error "Failed to analyze code: Invalid response format") ∧
      (∀ span, extractJsonSpan text = some span →
        (analyzeCodeSecurity respond).1 =
          if jsonParses span then Except.ok span
          else Except.error "Failed to analyze code: JSON parse error")) := by
  refine ⟨?_, ?_, ?_⟩
  · have h1 : (pre ++ lbrace :: (mid ++ rbrace :: post)).dropWhile
        (fun c => !(c == lbrace)) = lbrace :: (mid ++ rbrace :: post) := by
      rw [dropWhile_append_all _ pre _ (fun c hc => by simp [hpre c hc])]
      rw [List.dropWhile_cons, if_neg (by simp)]
    have h2 : (mid ++ rbrace :: post).reverse.dropWhile (fun c => !(c == rbrace)) =
        rbrace :: mid.reverse := by
      have hr : (mid ++ rbrace :: post).reverse = post.reverse ++ rbrace :: mid.reverse := by
        simp
      rw [hr, dropWhile_append_all _ _ _ (fun c hc => by
        simp [hpost c (List.mem_reverse.mp hc)])]
      rw [List.dropWhile_cons, if_neg (by simp)]
    unfold extractJsonSpanL
    rw [h1]
    simp only [h2]
    simp
  · intro s hs
    unfold extractJsonSpanL
    rw [dropWhile_all_nil _ s (fun c hc => by simp [hs c hc])]
  · intro respond text ht
    cases hg : tryGenerateContent respond with
    | mk r tr =>
      rw [hg] at ht
      cases r with
      | error e => simp at ht
      | ok text0 =>
        simp at ht
        subst ht
        constructor
        · intro hx
          simp [analyzeCodeSecurity, hg, hx]
        · intro span hx
          by_cases hj : jsonParses span = true <;>
            simp [analyzeCodeSecurity, hg, hx, hj]

/-- Closed instantiation of `analyze_extracts_greedy_span`: a prose prefix, a
report body, and a prose suffix without braces. -/
theorem analyze_extracts_greedy_span_witness :
    extractJsonSpanL ("Report: ".data ++ lbrace :: ("\"a\":1".data ++ rbrace :: " done.".data)) =
      some (lbrace :: ("\"a\":1".data ++ [rbrace])) ∧
    (analyzeCodeSecurity respondProseWrapped).1 =
      (if jsonParses "\x7b\"summary\":\"ok\",\"vulnerabilities\":[],\"recommendations\":[]\x7d see \x7bdocs\x7d"
       then Except.ok "\x7b\"summary\":\"ok\",\"vulnerabilities\":[],\"recommendations\":[]\x7d see \x7bdocs\x7d"
       else Except.error "Failed to analyze code: JSON parse error") := by
  obtain ⟨h1, _, h3⟩ := analyze_extracts_greedy_span "Report: ".data "\"a\":1".data " done.".data
    (by decide) (by decide)
  refine ⟨h1, ?_⟩
  exact (h3 respondProseWrapped proseWrappedReport rfl).2
    "\x7b\"summary\":\"ok\",\"vulnerabilities\":[],\"recommendations\":[]\x7d see \x7bdocs\x7d" rfl

/-- C1: for every aggregated finding list the Verdict Policy returns BLOCK
iff some finding has severity CRITICAL or the number of HIGH findings
exceeds the configured threshold, whose default is 2. -/
theorem verdict_block_iff (cfg : PolicyConfig) (fs : List Finding) :
    (verdictOf cfg fs = Verdict.BLOCK ↔
      (∃ f ∈ fs, f.severity = Severity.CRITICAL) ∨
        countHigh fs > cfg.highThreshold) ∧
    ({} : PolicyConfig).highThreshold = 2 := by
  refine ⟨?_, rfl⟩
  have hcond : ((fs.any fun f => f.severity == Severity.CRITICAL) = true ∨
      countHigh fs > cfg.highThreshold) ↔
      ((∃ f ∈ fs, f.severity = Severity.CRITICAL) ∨
        countHigh fs > cfg.highThreshold) := by
    simp [List.any_eq_true]
  unfold verdictOf
  split
  · next h => simp [hcond.mp h]
  · next h =>
    have hr : ¬((∃ f ∈ fs, f.severity = Severity.CRITICAL) ∨
        countHigh fs > cfg.highThreshold) := fun hc => h (hcond.mpr hc)
    split <;> simp [hr]

/-- Closed instantiation of `verdict_block_iff` at one CRITICAL finding. -/
theorem verdict_block_iff_witness :
    verdictOf {} [critFinding] = Verdict.BLOCK ∧
    ({} : PolicyConfig).highThreshold = 2 := by
  obtain ⟨hiff, hdef⟩ := verdict_block_iff {} [critFinding]
  exact ⟨hiff.mpr (Or.inl ⟨critFinding, List.mem_singleton.mpr rfl, rfl⟩), hdef⟩

/-- C2 counterexample: the aggregate of one LOW finding is nonempty, yet the
Verdict Policy returns PASS on it, so PASS does not imply that the finding
set is empty after deduplication. -/
theorem verdict_pass_nonempty_cex :
    verdictOf {} (aggregate 0 [lowFinding]) = Verdict.PASS ∧
    aggregate 0 [lowFinding] ≠ [] := by
  constructor
  · rfl
  · decide

/-- C2 amended: the Verdict Policy returns PASS iff every finding of the
aggregated list has severity LOW; in particular the empty list passes, but a
nonempty list whose findings are all LOW passes as well. -/
theorem verdict_pass_iff (cfg : PolicyConfig) (fs : List Finding) :
    verdictOf cfg fs = Verdict.PASS ↔ ∀ f ∈ fs, f.severity = Severity.LOW := by
  unfold verdictOf
  split
  · next h =>
    simp only [List.any_eq_true, beq_iff_eq] at h
    constructor
    · intro hB; cases hB
    · intro hall
      exfalso
      rcases h with hcrit | hhigh
      · obtain ⟨f, hf, hc⟩ := hcrit
        have := hall f hf
        rw [this] at hc
        cases hc
      · have hz : countHigh fs = 0 := by
          apply List.countP_eq_zero.mpr
          intro f hf
          simp [hall f hf]
        rw [hz] at hhigh
        omega
  · next h =>
    split
    · next h2 =>
      simp only [List.any_eq_true, Bool.or_eq_true, beq_iff_eq] at h2
      constructor
      · intro hW; cases hW
      · intro hall
        exfalso
        obtain ⟨f, hf, hc⟩ := h2
        have := hall f hf
        rcases hc with hc | hc <;> rw [this] at hc <;> cases hc
    · next h2 =>
      constructor
      · intro _
        intro f hf
        cases hsev : f.severity with
        | LOW => rfl
        | MEDIUM =>
          exact absurd (List.any_eq_true.mpr ⟨f, hf, by simp [hsev]⟩) h2
        | HIGH =>
          exact absurd (List.any_eq_true.mpr ⟨f, hf, by simp [hsev]⟩) h2
        | CRITICAL =>
          exact absurd (Or.inl (List.any_eq_true.mpr ⟨f, hf, by simp [hsev]⟩)) h
      · intro _; rfl

/-- Closed instantiation of `verdict_pass_iff` at one LOW finding. -/
theorem verdict_pass_iff_witness :
    verdictOf {} [lowFinding] = Verdict.PASS :=
  (verdict_pass_iff {} [lowFinding]).mpr (by decide)

theorem lookupKey_cons (k1 k : IdemKey) (r : ScanResultRec)
    (store : List (IdemKey × ScanResultRec)) :
    lookupKey ((k1, r) :: store) k =
      if k1 = k then some r else lookupKey store k := by
  by_cases h : k1 = k <;> simp [lookupKey, List.find?, h]

theorem createsFor_append (k : IdemKey) (t1 t2 : List ScanEffect) :
    createsFor k (t1 ++ t2) = createsFor k t1 + createsFor k t2 := by
  simp [createsFor, List.countP_append]

theorem statusFor_append (k : IdemKey) (t1 t2 : List ScanEffect) :
    statusFor k (t1 ++ t2) = statusFor k t1 + statusFor k t2 := by
  simp [statusFor, List.countP_append]

theorem alertsFor_append (k : IdemKey) (t1 t2 : List ScanEffect) :
    alertsFor k (t1 ++ t2) = alertsFor k t1 + alertsFor k t2 := by
  simp [alertsFor, List.countP_append]

theorem dispatchEffects_counts_self (k : IdemKey) (r : ScanResultRec) :
    createsFor k (ScanEffect.createResult k r :: ScanEffect.setStatus k r.verdict ::
      (if r.verdict = Verdict.PASS then [] else [ScanEffect.sendAlert k r.verdict])) = 1 ∧
    statusFor k (ScanEffect.createResult k r :: ScanEffect.setStatus k r.verdict ::
      (if r.verdict = Verdict.PASS then [] else [ScanEffect.sendAlert k r.verdict])) = 1 ∧
    alertsFor k (ScanEffect.createResult k r :: ScanEffect.setStatus k r.verdict ::
      (if r.verdict = Verdict.PASS then [] else [ScanEffect.sendAlert k r.verdict])) ≤ 1 := by
  by_cases hv : r.verdict = Verdict.PASS <;>
    simp [createsFor, statusFor, alertsFor, hv]

theorem dispatchEffects_counts_other (k1 k : IdemKey) (r : ScanResultRec)
    (hk : k1 ≠ k) :
    createsFor k (ScanEffect.createResult k1 r :: ScanEffect.setStatus k1 r.verdict ::
      (if r.verdict = Verdict.PASS then [] else [ScanEffect.sendAlert k1 r.verdict])) = 0 ∧
    statusFor k (ScanEffect.createResult k1 r :: ScanEffect.setStatus k1 r.verdict ::
      (if r.verdict = Verdict.PASS then [] else [ScanEffect.sendAlert k1 r.verdict])) = 0 ∧
    alertsFor k (ScanEffect.createResult k1 r :: ScanEffect.setStatus k1 r.verdict ::
      (if r.verdict = Verdict.PASS then [] else [ScanEffect.sendAlert k1 r.verdict])) = 0 := by
  by_cases hv : r.verdict = Verdict.PASS <;>
    simp [createsFor, statusFor, alertsFor, hv, hk]

theorem runEvents_at_most_once (scan : ScanEvent → Option ScanResultRec)
    (k : IdemKey) :
    ∀ (events : List ScanEvent) (store : List (IdemKey × ScanResultRec)),
      createsFor k (runEvents scan store events).2 ≤
        (if (lookupKey store k).isSome then 0 else 1) ∧
      statusFor k (runEvents scan store events).2 ≤
        (if (lookupKey store k).isSome then 0 else 1) ∧
      alertsFor k (runEvents scan store events).2 ≤
        (if (lookupKey store k).isSome then 0 else 1) := by
  intro events
  induction events with
  | nil =>
    intro store
    refine ⟨?_, ?_, ?_⟩ <;> simp [runEvents, createsFor, statusFor, alertsFor]
  | cons e rest ih =>
    intro store
    cases hl : lookupKey store (idemKey e) with
    | some r0 =>
      have hproc : processEvent scan store e = (store, [], OrchState.DONE) := by
        simp [processEvent, hl]
      simp only [runEvents, hproc, List.nil_append]
      exact ih store
    | none =>
      cases hs : scan e with
      | none =>
        have hproc : processEvent scan store e = (store, [], OrchState.FAILED) := by
          simp [processEvent, hl, hs]
        simp only [runEvents, hproc, List.nil_append]
        exact ih store
      | some r =>
        have hproc : processEvent scan store e =
            ((idemKey e, r) :: store,
             ScanEffect.createResult (idemKey e) r ::
               ScanEffect.setStatus (idemKey e) r.verdict ::
               (if r.verdict = Verdict.PASS then []
                else [ScanEffect.sendAlert (idemKey e) r.verdict]),
             OrchState.DONE) := by
          simp [processEvent, hl, hs]
        obtain ⟨ihc, ihs, iha⟩ := ih ((idemKey e, r) :: store)
        rw [lookupKey_cons] at ihc ihs iha
        simp only [runEvents, hproc]
        rw [createsFor_append, statusFor_append, alertsFor_append]
        by_cases hk : idemKey e = k
        · subst hk
          rw [if_pos rfl] at ihc ihs iha
          simp only [Option.isSome_some, if_true] at ihc ihs iha
          obtain ⟨hc1, hs1, ha1⟩ := dispatchEffects_counts_self (idemKey e) r
          rw [hc1, hs1, hl]
          simp only [Option.isSome_none, Bool.false_eq_true, if_false]
          omega
        · rw [if_neg hk] at ihc ihs iha
          obtain ⟨hc0, hs0, ha0⟩ := dispatchEffects_counts_other (idemKey e) k r hk
          rw [hc0, hs0, ha0]
          refine ⟨by simpa using ihc, by simpa using ihs, by simpa using iha⟩

/-- C3: side effects are at-most-once per idempotency key and duplicates
short-circuit: an event whose key already has a stored ScanResult is
processed to DONE with the store unchanged and no effects, and over any
delivered event sequence starting from an empty store at most one ScanResult
persist, one status update and one alert are dispatched for any given
key. -/
theorem orchestrator_idempotency (scan : ScanEvent → Option ScanResultRec)
    (events : List ScanEvent) (k : IdemKey)
    (store : List (IdemKey × ScanResultRec)) (e : ScanEvent) :
    ((lookupKey store (idemKey e)).isSome = true →
      processEvent scan store e = (store, [], OrchState.DONE)) ∧
    createsFor k (runEvents scan [] events).2 ≤ 1 ∧
    statusFor k (runEvents scan [] events).2 ≤ 1 ∧
    alertsFor k (runEvents scan [] events).2 ≤ 1 := by
  obtain ⟨h1, h2, h3⟩ := runEvents_at_most_once scan k events []
  have hempty : lookupKey ([] : List (IdemKey × ScanResultRec)) k = none := rfl
  rw [hempty] at h1 h2 h3
  simp only [Option.isSome_none, Bool.false_eq_true, if_false] at h1 h2 h3
  refine ⟨?_, h1, h2, h3⟩
  intro hsome
  obtain ⟨r0, hr0⟩ := Option.isSome_iff_exists.mp hsome
  simp [processEvent, hr0]

/-- Closed instantiation of `orchestrator_idempotency`: a duplicate of
`sampleEvent` against a store that already holds its result, and a double
delivery of the same event from an empty store. -/
theorem orchestrator_idempotency_witness :
    processEvent scanAlwaysBlock sampleStore sampleEvent =
      (sampleStore, [], OrchState.DONE) ∧
    createsFor (idemKey sampleEvent)
      (runEvents scanAlwaysBlock [] [sampleEvent, sampleEvent]).2 ≤ 1 ∧
    alertsFor (idemKey sampleEvent)
      (runEvents scanAlwaysBlock [] [sampleEvent, sampleEvent]).2 ≤ 1 := by
  obtain ⟨h1, h2, _, h4⟩ := orchestrator_idempotency scanAlwaysBlock
    [sampleEvent, sampleEvent] (idemKey sampleEvent) sampleStore sampleEvent
  exact ⟨h1 rfl, h2, h4⟩

theorem collides_symm (tol : Nat) (f g : Finding) :
    collides tol f g = collides tol g f := by
  unfold collides
  by_cases hp : f.path = g.path
  · by_cases hc : f.category = g.category
    · rw [hp, hc]
      cases f.line <;> cases g.line <;> simp [Nat.max_comm, Nat.min_comm]
    · have h1 : (f.category == g.category) = false := by simp [hc]
      have h2 : (g.category == f.category) = false := by simp [Ne.symm hc]
      simp [h1, h2]
  · have h1 : (f.path == g.path) = false := by simp [hp]
    have h2 : (g.path == f.path) = false := by simp [Ne.symm hp]
    simp [h1, h2]

theorem NColl_symmetric (tol : Nat) : Symmetric (NColl tol) := by
  intro f g h
  unfold NColl at h ⊢
  rw [collides_symm]
  exact h

theorem collides_attachSupp_left (tol : Nat) (g h : Finding) (m : String) :
    collides tol (attachSupp g m) h = collides tol g h := by
  simp [collides, attachSupp]

theorem collides_attachSupp_right (tol : Nat) (g h : Finding) (m : String) :
    collides tol h (attachSupp g m) = collides tol h g := by
  simp [collides, attachSupp]

theorem keepFirst_pairwise (tol : Nat) :
    ∀ (l kept : List Finding),
      (keepFirst tol kept l).Pairwise (NColl tol) ∧
      ∀ f ∈ keepFirst tol kept l, ∀ g ∈ kept, collides tol g f = false := by
  intro l
  induction l with
  | nil => intro kept; simp [keepFirst]
  | cons f rest ih =>
    intro kept
    by_cases hany : (kept.any fun g => collides tol g f) = true
    · rw [keepFirst, if_pos hany]
      exact ih kept
    · rw [keepFirst, if_neg hany]
      obtain ⟨ihPW, ihKept⟩ := ih (f :: kept)
      have hanyf : ∀ g ∈ kept, collides tol g f = false := by
        intro g hg
        have h0 : (kept.any fun g => collides tol g f) = false := by
          simpa using hany
        have h1 := List.any_eq_false.mp h0 g hg
        simpa using h1
      constructor
      · rw [List.pairwise_cons]
        refine ⟨?_, ihPW⟩
        intro h hh
        exact ihKept h hh f (List.mem_cons_self f kept)
      · intro h hh g hg
        rcases List.mem_cons.mp hh with h1 | h1
        · subst h1; exact hanyf g hg
        · exact ihKept h h1 g (List.mem_cons_of_mem f hg)

theorem keepFirst_eq_self (tol : Nat) :
    ∀ (l kept : List Finding), l.Pairwise (NColl tol) →
      (∀ f ∈ l, ∀ g ∈ kept, collides tol g f = false) →
      keepFirst tol kept l = l := by
  intro l
  induction l with
  | nil => intro kept _ _; rfl
  | cons f rest ih =>
    intro kept hpw hcross
    have hany : (kept.any fun g => collides tol g f) = false := by
      apply List.any_eq_false.mpr
      intro g hg
      simp [hcross f (List.mem_cons_self f rest) g hg]
    rw [keepFirst, if_neg (by simp [hany])]
    congr 1
    obtain ⟨hhead, htail⟩ := List.pairwise_cons.mp hpw
    apply ih (f :: kept) htail
    intro h hh g hg
    rcases List.mem_cons.mp hg with h1 | h1
    · subst h1
      have := hhead h hh
      unfold NColl at this
      exact this
    · exact hcross h (List.mem_cons_of_mem f hh) g h1

theorem insertAI_mem (tol : Nat) :
    ∀ (l : List Finding) (f h : Finding), h ∈ insertAI tol l f →
      h = f ∨ ∃ o ∈ l, h = o ∨ h = attachSupp o f.message := by
  intro l
  induction l with
  | nil =>
    intro f h hh
    simp [insertAI] at hh
    exact Or.inl hh
  | cons g rest ih =>
    intro f h hh
    rw [insertAI] at hh
    by_cases hc : collides tol g f = true
    · rw [if_pos hc] at hh
      by_cases hsrc : g.source = Source.PATTERN
      · rw [if_pos hsrc] at hh
        rcases List.mem_cons.mp hh with h1 | h1
        · exact Or.inr ⟨g, List.mem_cons_self g rest, Or.inr h1⟩
        · exact Or.inr ⟨h, List.mem_cons_of_mem g h1, Or.inl rfl⟩
      · rw [if_neg hsrc] at hh
        rcases List.mem_cons.mp hh with h1 | h1
        · exact Or.inr ⟨g, List.mem_cons_self g rest, Or.inl h1⟩
        · exact Or.inr ⟨h, List.mem_cons_of_mem g h1, Or.inl rfl⟩
    · rw [if_neg hc] at hh
      rcases List.mem_cons.mp hh with h1 | h1
      · exact Or.inr ⟨g, List.mem_cons_self g rest, Or.inl h1⟩
      · rcases ih f h h1 with h2 | ⟨o, ho, h2⟩
        · exact Or.inl h2
        · exact Or.inr ⟨o, List.mem_cons_of_mem g ho, h2⟩

theorem insertAI_pairwise (tol : Nat) :
    ∀ (l : List Finding) (f : Finding), l.Pairwise (NColl tol) →
      (insertAI tol l f).Pairwise (NColl tol) := by
  intro l
  induction l with
  | nil => intro f _; simp [insertAI, List.pairwise_cons]
  | cons g rest ih =>
    intro f hpw
    obtain ⟨hhead, htail⟩ := List.pairwise_cons.mp hpw
    rw [insertAI]
    by_cases hc : collides tol g f = true
    · rw [if_pos hc]
      by_cases hsrc : g.source = Source.PATTERN
      · rw [if_pos hsrc]
        rw [List.pairwise_cons]
        refine ⟨?_, htail⟩
        intro h hh
        unfold NColl
        rw [collides_attachSupp_left]
        exact hhead h hh
      · rw [if_neg hsrc]
        exact hpw
    · rw [if_neg hc]
      rw [List.pairwise_cons]
      refine ⟨?_, ih f htail⟩
      intro h hh
      rcases insertAI_mem tol rest f h hh with h1 | ⟨o, ho, h1⟩
      · subst h1
        unfold NColl
        simpa using hc
      · rcases h1 with h1 | h1
        · rw [h1]; exact hhead o ho
        · rw [h1]
          unfold NColl
          rw [collides_attachSupp_right]
          exact hhead o ho

theorem insertAI_no_collision (tol : Nat) :
    ∀ (l : List Finding) (f : Finding),
      (∀ g ∈ l, collides tol g f = false) →
      insertAI tol l f = l ++ [f] := by
  intro l
  induction l with
  | nil => intro f _; rfl
  | cons g rest ih =>
    intro f hno
    rw [insertAI, if_neg (by simp [hno g (List.mem_cons_self g rest)])]
    rw [List.cons_append]
    congr 1
    exact ih f fun h hh => hno h (List.mem_cons_of_mem g hh)

theorem foldl_insertAI_pairwise (tol : Nat) :
    ∀ (ais ks : List Finding), ks.Pairwise (NColl tol) →
      (ais.foldl (insertAI tol) ks).Pairwise (NColl tol) := by
  intro ais
  induction ais with
  | nil => intro ks h; exact h
  | cons a rest ih =>
    intro ks h
    rw [List.foldl_cons]
    exact ih (insertAI tol ks a) (insertAI_pairwise tol ks a h)

theorem foldl_insertAI_append (tol : Nat) :
    ∀ (ais ks : List Finding), ais.Pairwise (NColl tol) →
      (∀ a ∈ ais, ∀ g ∈ ks, collides tol g a = false) →
      ais.foldl (insertAI tol) ks = ks ++ ais := by
  intro ais
  induction ais with
  | nil => intro ks _ _; simp
  | cons a rest ih =>
    intro ks hpw hcross
    obtain ⟨hhead, htail⟩ := List.pairwise_cons.mp hpw
    rw [List.foldl_cons,
      insertAI_no_collision tol ks a (fun g hg => hcross a (List.mem_cons_self a rest) g hg)]
    rw [ih (ks ++ [a]) htail ?_]
    · simp
    · intro a2 ha2 g hg
      rcases List.mem_append.mp hg with h1 | h1
      · exact hcross a2 (List.mem_cons_of_mem a ha2) g h1
      · have : g = a := by simpa using h1
        subst this
        exact hhead a2 ha2

theorem canonSort_perm (l : List Finding) : List.Perm (canonSort l) l :=
  List.perm_insertionSort fle l

theorem canonSort_sorted (l : List Finding) : List.Sorted fle (canonSort l) :=
  List.sorted_insertionSort fle l

theorem canonSort_eq_of_perm {l₁ l₂ : List Finding} (h : List.Perm l₁ l₂) :
    canonSort l₁ = canonSort l₂ :=
  List.eq_of_perm_of_sorted ((canonSort_perm l₁).trans (h.trans (canonSort_perm l₂).symm))
    (canonSort_sorted l₁) (canonSort_sorted l₂)

theorem canonSort_eq_self {l : List Finding} (h : List.Sorted fle l) :
    canonSort l = l :=
  List.Sorted.insertionSort_eq h

theorem isAISrc_eq_not_isPatternSrc (f : Finding) :
    isAISrc f = !(isPatternSrc f) := by
  unfold isAISrc isPatternSrc
  cases f.source <;> rfl

theorem aggregate_perm_congr (tol : Nat) {l₁ l₂ : List Finding}
    (h : List.Perm l₁ l₂) :
    aggregate tol l₁ = aggregate tol l₂ := by
  unfold aggregate
  rw [canonSort_eq_of_perm (h.filter isPatternSrc),
    canonSort_eq_of_perm (h.filter isAISrc)]

theorem aggregate_pairwise (tol : Nat) (l : List Finding) :
    (aggregate tol l).Pairwise (NColl tol) := by
  unfold aggregate
  have hks := (keepFirst_pairwise tol (canonSort (l.filter isPatternSrc)) []).1
  have hfold := foldl_insertAI_pairwise tol (canonSort (l.filter isAISrc)) _ hks
  exact ((canonSort_perm _).pairwise_iff
    (fun hxy => NColl_symmetric tol hxy)).mpr hfold

theorem aggregate_idem (tol : Nat) (l : List Finding) :
    aggregate tol (aggregate tol l) = aggregate tol l := by
  set out := aggregate tol l with hout
  have hPW : out.Pairwise (NColl tol) := aggregate_pairwise tol l
  have hSort : List.Sorted fle out := by
    rw [hout]; unfold aggregate; exact canonSort_sorted _
  have hpfPW : (out.filter isPatternSrc).Pairwise (NColl tol) :=
    hPW.sublist (List.filter_sublist out)
  have hpfSort : List.Sorted fle (out.filter isPatternSrc) :=
    List.Pairwise.sublist (List.filter_sublist out) hSort
  have hafPW : (out.filter isAISrc).Pairwise (NColl tol) :=
    hPW.sublist (List.filter_sublist out)
  have hafSort : List.Sorted fle (out.filter isAISrc) :=
    List.Pairwise.sublist (List.filter_sublist out) hSort
  have hcross : ∀ a ∈ out.filter isAISrc, ∀ g ∈ out.filter isPatternSrc,
      collides tol g a = false := by
    intro a ha g hg
    obtain ⟨hga, hgsrc⟩ := List.mem_filter.mp hg
    obtain ⟨haa, hasrc⟩ := List.mem_filter.mp ha
    have hgp : g.source = Source.PATTERN := by simpa [isPatternSrc] using hgsrc
    have hai : a.source = Source.AI := by simpa [isAISrc] using hasrc
    have hne : g ≠ a := fun h => by rw [h, hai] at hgp; cases hgp
    exact hPW.forall (NColl_symmetric tol) hga haa hne
  have hempty : ∀ f ∈ out.filter isPatternSrc, ∀ g ∈ ([] : List Finding),
      collides tol g f = false := by
    intro f _ g hg
    exact absurd hg (List.not_mem_nil g)
  simp only [aggregate]
  rw [canonSort_eq_self hpfSort, canonSort_eq_self hafSort]
  rw [keepFirst_eq_self tol (out.filter isPatternSrc) [] hpfPW hempty]
  rw [foldl_insertAI_append tol (out.filter isAISrc) (out.filter isPatternSrc)
    hafPW hcross]
  have hperm : List.Perm (out.filter isPatternSrc ++ out.filter isAISrc) out := by
    have hfc : out.filter isAISrc = out.filter (fun f => !(isPatternSrc f)) :=
      List.filter_congr (fun f _ => isAISrc_eq_not_isPatternSrc f)
    rw [hfc]
    exact List.filter_append_perm isPatternSrc out
  calc canonSort (out.filter isPatternSrc ++ out.filter isAISrc)
      = canonSort out := canonSort_eq_of_perm hperm
    _ = out := canonSort_eq_self hSort

/-- C7: the Finding Aggregator is idempotent, and aggregating the pattern
and AI finding lists yields the same output regardless of the order in which
the two input lists are concatenated. -/
theorem aggregate_idempotent_order_insensitive (tol : Nat) (x y : List Finding) :
    aggregate tol (aggregate tol x) = aggregate tol x ∧
    aggregate tol (x ++ y) = aggregate tol (y ++ x) :=
  ⟨aggregate_idem tol x, aggregate_perm_congr tol List.perm_append_comm⟩

end ATFSentinel
